import Mathlib

/-!
Verification of the two-service order/product demo: a Product Service owning
an in-memory catalog, and an Order Service whose order-creation workflow
prices each line item through a remote `GET /products/{id}` call, aggregates
`price * quantity`, and fails fast on the first bad item.

The embedding is shallow: Python dicts become insertion-ordered association
lists, Python floats become rationals, each HTTP handler becomes a pure
function from state (plus the environment it observes: the remote lookup
behavior and the clock reading) to a result and a new state, and raising
`HTTPException(status_code, detail)` becomes returning `.error ⟨status, detail⟩`.
-/

set_option maxHeartbeats 1000000

namespace MicroDemo

/-- A structured HTTP error as raised by `HTTPException(status_code=..., detail=...)`
in both services: the status code and the human-readable detail message. -/
structure Failure where
  status : Nat
  detail : String
  deriving DecidableEq, Repr

/-- A Python `dict` keyed by strings, modelled as an insertion-ordered
association list: assigning to an existing key updates it in place,
assigning a fresh key appends at the end. -/
abbrev StrDict (α : Type) := List (String × α)

/-- `d[k]` as an option: the value stored at `k`, if any. -/
def dictLookup {α : Type} (d : StrDict α) (k : String) : Option α :=
  match d with
  | [] => none
  | (k2, v) :: rest => if k2 = k then some v else dictLookup rest k

/-- Python's `k in d`. -/
def dictContains {α : Type} (d : StrDict α) (k : String) : Bool :=
  (dictLookup d k).isSome

/-- Python's `d[k] = v`: update in place when `k` is present, append otherwise. -/
def dictInsert {α : Type} (d : StrDict α) (k : String) (v : α) : StrDict α :=
  match d with
  | [] => [(k, v)]
  | (k2, v2) :: rest =>
    if k2 = k then (k, v) :: rest else (k2, v2) :: dictInsert rest k v

/-- Python's `d[k]["field"] = ...`: mutate the stored value at `k` in place. -/
def dictModify {α : Type} (d : StrDict α) (k : String) (f : α → α) : StrDict α :=
  match d with
  | [] => []
  | (k2, v) :: rest =>
    if k2 = k then (k2, f v) :: rest else (k2, v) :: dictModify rest k f

/-- Python's `del d[k]`. -/
def dictDelete {α : Type} (d : StrDict α) (k : String) : StrDict α :=
  match d with
  | [] => []
  | (k2, v) :: rest => if k2 = k then rest else (k2, v) :: dictDelete rest k

/-- Python's `list(d.values())`, in insertion order. -/
def dictValues {α : Type} (d : StrDict α) : List α := d.map (fun p => p.2)

/-- Python truthiness of an optional string query parameter: `if category:`
is false both when the parameter is absent (`None`) and when it is the
empty string. -/
def strTruthy : Option String → Bool
  | none => false
  | some s => s != ""

/-! ### Product Service (src/product-service/main.py) -/

/-- The `Product` pydantic model. -/
structure Product where
  id : String
  name : String
  price : ℚ
  category : String
  deriving DecidableEq, Repr

/-- The `ProductCreate` pydantic model (a product without an id). -/
structure ProductCreate where
  name : String
  price : ℚ
  category : String
  deriving DecidableEq, Repr

/-- The initial contents of `products_db`. -/
def initial_products_db : StrDict Product :=
  [("1", ⟨"1", "Laptop", 999.99, "Electronics"⟩),
   ("2", ⟨"2", "Mouse", 29.99, "Electronics"⟩),
   ("3", ⟨"3", "Keyboard", 79.99, "Electronics"⟩)]

/-- `GET /products`: all products, filtered by exact category match when the
`category` query parameter is truthy (present and non-empty). -/
def get_products (products_db : StrDict Product) (category : Option String) :
    List Product :=
  let products := dictValues products_db
  if strTruthy category then
    products.filter (fun p => p.category == category.getD "")
  else
    products

/-- `GET /products/{product_id}`: 404 when absent. -/
def get_product (products_db : StrDict Product) (product_id : String) :
    Except Failure Product :=
  match dictLookup products_db product_id with
  | none => .error ⟨404, "Product not found"⟩
  | some p => .ok p

/-- `POST /products`: assigns `str(len(products_db) + 1)` as the id. -/
def create_product (products_db : StrDict Product) (product : ProductCreate) :
    Product × StrDict Product :=
  let product_id := Nat.repr (products_db.length + 1)
  let new_product : Product := ⟨product_id, product.name, product.price, product.category⟩
  (new_product, dictInsert products_db product_id new_product)

/-- `PUT /products/{product_id}`: full replace, id preserved; 404 when absent. -/
def update_product (products_db : StrDict Product) (product_id : String)
    (product : ProductCreate) : Except Failure Product × StrDict Product :=
  if dictContains products_db product_id then
    let updated : Product := ⟨product_id, product.name, product.price, product.category⟩
    (.ok updated, dictInsert products_db product_id updated)
  else
    (.error ⟨404, "Product not found"⟩, products_db)

/-- `DELETE /products/{product_id}`: 404 when absent. -/
def delete_product (products_db : StrDict Product) (product_id : String) :
    Except Failure String × StrDict Product :=
  if dictContains products_db product_id then
    (.ok "Product deleted successfully", dictDelete products_db product_id)
  else
    (.error ⟨404, "Product not found"⟩, products_db)

/-! ### Order Service (src/order-service/main.py) -/

/-- The `OrderItem` pydantic model. `quantity` is a Python `int`: nothing
rejects zero or negative values. -/
structure OrderItem where
  product_id : String
  quantity : Int
  deriving DecidableEq, Repr

/-- The `Order` pydantic model. -/
structure Order where
  id : String
  customer_id : String
  items : List OrderItem
  total : ℚ
  status : String
  created_at : String
  deriving DecidableEq, Repr

/-- The `OrderCreate` pydantic model. -/
structure OrderCreate where
  customer_id : String
  items : List OrderItem
  deriving DecidableEq, Repr

/-- The outcome the order service observes from one remote
`GET /products/{id}` call: either an HTTP response carrying a status code and
the parsed body's `price` field, or a transport-level error
(`httpx.RequestError`: connection refused, DNS failure, timeout) carrying
its message text. -/
inductive LookupResult
  | response (status_code : Nat) (price : ℚ)
  | transportError (msg : String)
  deriving DecidableEq, Repr

/-- Python's `round(x, 2)`: round to 2 decimal places. -/
def round2 (q : ℚ) : ℚ := (round (q * 100) : ℚ) / 100

/-- One iteration of the pricing loop body of `create_order`: the branch on
`response.status_code` (200 prices the item, 404 aborts not-found, any other
status aborts pass-through) together with the `except httpx.RequestError`
handler mapping transport failures to 503. -/
def processItem (item : OrderItem) (res : LookupResult) : Except Failure ℚ :=
  match res with
  | .response status_code price =>
    if status_code = 200 then
      .ok (price * (item.quantity : ℚ))
    else if status_code = 404 then
      .error ⟨404, "Product " ++ item.product_id ++ " not found"⟩
    else
      .error ⟨status_code, "Error fetching product " ++ item.product_id⟩
  | .transportError e => .error ⟨503, "Product Service unavailable: " ++ e⟩

/-- The sequential pricing loop of `create_order`: `total` accumulates
`price * quantity` item by item in submission order; the first failing
lookup aborts the whole loop with its failure. -/
def priceItems (lookup : String → LookupResult) :
    List OrderItem → ℚ → Except Failure ℚ
  | [], total => .ok total
  | item :: rest, total =>
    match processItem item (lookup item.product_id) with
    | .error f => .error f
    | .ok contrib => priceItems lookup rest (total + contrib)

/-- The product ids for which the pricing loop issues a remote lookup, in
order: one lookup per item up to and including the first failing one. -/
def callsMade (lookup : String → LookupResult) : List OrderItem → List String
  | [] => []
  | item :: rest =>
    item.product_id ::
      (match processItem item (lookup item.product_id) with
       | .ok _ => callsMade lookup rest
       | .error _ => [])

/-- The order service's mutable globals: `orders_db` and `order_counter`. -/
structure OrderState where
  orders_db : StrDict Order
  order_counter : Nat
  deriving Repr

/-- The state at process start: empty store, counter 1. -/
def initOrderState : OrderState := ⟨[], 1⟩

/-- The `valid_statuses` list of `update_order_status`. -/
def valid_statuses : List String :=
  ["pending", "confirmed", "shipped", "delivered", "canceled"]

/-- `POST /orders`: price every item through the remote lookup; on success
round the total, assign `str(order_counter)`, bump the counter, store the
order with status `"pending"` and the current UTC timestamp. On any pricing
failure the exception propagates before step 3, leaving the state untouched. -/
def create_order (σ : OrderState) (lookup : String → LookupResult)
    (order : OrderCreate) (now : String) : Except Failure Order × OrderState :=
  match priceItems lookup order.items 0 with
  | .error f => (.error f, σ)
  | .ok total =>
    let order_id := Nat.repr σ.order_counter
    let new_order : Order :=
      ⟨order_id, order.customer_id, order.items, round2 total, "pending", now⟩
    (.ok new_order, ⟨dictInsert σ.orders_db order_id new_order, σ.order_counter + 1⟩)

/-- `GET /orders/{order_id}`: 404 when absent. -/
def get_order (σ : OrderState) (order_id : String) : Except Failure Order :=
  match dictLookup σ.orders_db order_id with
  | none => .error ⟨404, "Order not found"⟩
  | some o => .ok o

/-- `GET /orders`: all orders, filtered by exact customer match when the
`customer_id` query parameter is truthy (present and non-empty). -/
def get_orders (σ : OrderState) (customer_id : Option String) : List Order :=
  let orders := dictValues σ.orders_db
  if strTruthy customer_id then
    orders.filter (fun o => o.customer_id == customer_id.getD "")
  else
    orders

/-- `PATCH /orders/{order_id}/status`: 404 when the order is absent, 400 when
the status is outside `valid_statuses`, otherwise mutate the stored order's
status field in place and return the confirmation message. -/
def update_order_status (σ : OrderState) (order_id : String) (status : String) :
    Except Failure String × OrderState :=
  if dictContains σ.orders_db order_id then
    if status ∈ valid_statuses then
      (.ok ("Order " ++ order_id ++ " status updated to " ++ status),
       ⟨dictModify σ.orders_db order_id (fun o => { o with status := status }),
        σ.order_counter⟩)
    else
      (.error ⟨400, "Invalid status. Must be one of " ++ toString valid_statuses⟩, σ)
  else
    (.error ⟨404, "Order not found"⟩, σ)

/-- The price carried by a lookup outcome (the parsed body's `price` field;
`0` for a transport error, where no body exists). -/
def priceOf : LookupResult → ℚ
  | .response _ p => p
  | .transportError _ => 0

/-! ### Association-list (Python dict) lemmas -/

lemma dictLookup_dictInsert_ne {α : Type} (d : StrDict α) (k k2 : String) (v : α)
    (h : k ≠ k2) : dictLookup (dictInsert d k v) k2 = dictLookup d k2 := by
  induction d with
  | nil => simp [dictInsert, dictLookup, h]
  | cons kv rest ih =>
    obtain ⟨k3, v3⟩ := kv
    by_cases h3 : k3 = k <;> simp [dictInsert, dictLookup, h3, h, ih]

lemma dictLookup_dictModify_self {α : Type} (d : StrDict α) (k : String)
    (f : α → α) : dictLookup (dictModify d k f) k = (dictLookup d k).map f := by
  induction d with
  | nil => rfl
  | cons kv rest ih =>
    obtain ⟨k2, v⟩ := kv
    by_cases h : k2 = k <;> simp [dictModify, dictLookup, h, ih]

lemma dictLookup_dictModify_ne {α : Type} (d : StrDict α) (k k2 : String)
    (f : α → α) (h : k ≠ k2) :
    dictLookup (dictModify d k f) k2 = dictLookup d k2 := by
  induction d with
  | nil => rfl
  | cons kv rest ih =>
    obtain ⟨k3, v⟩ := kv
    by_cases h3 : k3 = k <;> simp [dictModify, dictLookup, h3, h, ih]

lemma mem_of_dictLookup {α : Type} (d : StrDict α) (k : String) (v : α)
    (h : dictLookup d k = some v) : (k, v) ∈ d := by
  induction d with
  | nil => simp [dictLookup] at h
  | cons kv rest ih =>
    obtain ⟨k2, v2⟩ := kv
    by_cases h2 : k2 = k
    · subst h2
      simp [dictLookup] at h
      simp [h]
    · simp [dictLookup, h2] at h
      simp [ih h]

lemma mem_dictInsert {α : Type} (d : StrDict α) (k : String) (v : α) (p : String × α)
    (h : p ∈ dictInsert d k v) : p ∈ d ∨ p = (k, v) := by
  induction d with
  | nil =>
    simp [dictInsert] at h
    simp [h]
  | cons kv rest ih =>
    obtain ⟨k2, v2⟩ := kv
    by_cases h2 : k2 = k
    · subst h2
      simp [dictInsert] at h
      rcases h with h | h
      · simp [h]
      · simp [h]
    · simp [dictInsert, h2] at h
      rcases h with h | h
      · simp [h]
      · rcases ih h with h3 | h3
        · simp [h3]
        · simp [h3]

lemma mem_dictModify {α : Type} (d : StrDict α) (k : String) (f : α → α)
    (p : String × α) (h : p ∈ dictModify d k f) :
    ∃ q ∈ d, p.1 = q.1 ∧ (p.2 = q.2 ∨ p.2 = f q.2) := by
  induction d with
  | nil => simp [dictModify] at h
  | cons kv rest ih =>
    obtain ⟨k2, v2⟩ := kv
    by_cases h2 : k2 = k
    · subst h2
      simp [dictModify] at h
      rcases h with h | h
      · exact ⟨(k2, v2), by simp, by simp [h], by simp [h]⟩
      · exact ⟨p, by simp [h], rfl, by simp⟩
    · simp [dictModify, h2] at h
      rcases h with h | h
      · exact ⟨(k2, v2), by simp, by simp [h], by simp [h]⟩
      · obtain ⟨q, hq, hpq, hv⟩ := ih h
        exact ⟨q, by simp [hq], hpq, hv⟩

lemma mem_dictDelete {α : Type} (d : StrDict α) (k : String) (p : String × α)
    (h : p ∈ dictDelete d k) : p ∈ d := by
  induction d with
  | nil => simp [dictDelete] at h
  | cons kv rest ih =>
    obtain ⟨k2, v2⟩ := kv
    by_cases h2 : k2 = k
    · simp [dictDelete, h2] at h
      simp [h]
    · simp [dictDelete, h2] at h
      rcases h with h | h
      · simp [h]
      · simp [ih h]

/-! ### Pricing-loop lemmas -/

lemma priceItems_ok (lookup : String → LookupResult) :
    ∀ (items : List OrderItem) (acc : ℚ),
      (∀ item ∈ items, ∃ q, lookup item.product_id = .response 200 q) →
      priceItems lookup items acc =
        .ok (acc + (items.map
          (fun item => priceOf (lookup item.product_id) * (item.quantity : ℚ))).sum) := by
  intro items
  induction items with
  | nil => intro acc _; simp [priceItems]
  | cons item rest ih =>
    intro acc h
    obtain ⟨q, hq⟩ := h item (by simp)
    have hi := ih (acc + q * (item.quantity : ℚ)) (fun it hit => h it (by simp [hit]))
    simp [priceItems, processItem, hq, hi, priceOf, add_assoc]

lemma priceItems_append_error (lookup : String → LookupResult) (f : Failure) :
    ∀ (pre : List OrderItem) (bad : OrderItem) (rest : List OrderItem) (acc : ℚ),
      (∀ item ∈ pre, ∃ q, lookup item.product_id = .response 200 q) →
      processItem bad (lookup bad.product_id) = .error f →
      priceItems lookup (pre ++ bad :: rest) acc = .error f := by
  intro pre
  induction pre with
  | nil =>
    intro bad rest acc _ hbad
    rw [List.nil_append, priceItems, hbad]
  | cons item pre2 ih =>
    intro bad rest acc h hbad
    obtain ⟨q, hq⟩ := h item (by simp)
    have hi := ih bad rest (acc + q * (item.quantity : ℚ))
      (fun it hit => h it (by simp [hit])) hbad
    simp [priceItems, processItem, hq, hi]

/-! ### Claim C1: total of a fully-priced order -/

/-- Claim C1: for every order-creation call in which every item's remote
product lookup succeeds (status 200), the call succeeds and the created
order's total equals the sum over the items of the reported unit price times
the item's quantity, rounded to 2 decimal places. -/
theorem create_order_total_eq_rounded_sum (σ : OrderState)
    (lookup : String → LookupResult) (order : OrderCreate) (now : String)
    (h : ∀ item ∈ order.items, ∃ q, lookup item.product_id = .response 200 q) :
    ∃ (new_order : Order) (σ2 : OrderState),
      create_order σ lookup order now = (.ok new_order, σ2) ∧
      new_order.total = round2 ((order.items.map
        (fun item => priceOf (lookup item.product_id) * (item.quantity : ℚ))).sum) := by
  have hp := priceItems_ok lookup order.items 0 h
  unfold create_order
  rw [hp]
  exact ⟨_, _, rfl, by simp⟩

/-- The lookup environment of the C1 witness: every product priced at 5. -/
def lookupW1 : String → LookupResult := fun _ => .response 200 5

/-- The request of the C1 witness. -/
def reqW1 : OrderCreate := ⟨"alice", [⟨"1", 2⟩, ⟨"2", 3⟩]⟩

theorem create_order_total_eq_rounded_sum_witness :
    (∀ item ∈ reqW1.items, ∃ q, lookupW1 item.product_id = .response 200 q) ∧
    ∃ (new_order : Order) (σ2 : OrderState),
      create_order initOrderState lookupW1 reqW1 "2024-01-01T00:00:00" =
        (.ok new_order, σ2) ∧
      new_order.total = round2 ((reqW1.items.map
        (fun item => priceOf (lookupW1 item.product_id) * (item.quantity : ℚ))).sum) :=
  have h : ∀ item ∈ reqW1.items, ∃ q, lookupW1 item.product_id = .response 200 q :=
    fun _ _ => ⟨5, rfl⟩
  ⟨h, create_order_total_eq_rounded_sum initOrderState lookupW1 reqW1
    "2024-01-01T00:00:00" h⟩

/-! ### Claim C2: first not-found product aborts with 404 -/

/-- Claim C2: when every item before `bad` is successfully priced and `bad`'s
product lookup reports 404 (the product does not exist), order creation
returns the NotFound failure naming `bad`'s product id — the lowest-index
offending item — and leaves the order store and counter untouched. -/
theorem create_order_notfound_aborts (σ : OrderState)
    (lookup : String → LookupResult) (order : OrderCreate) (now : String)
    (pre rest : List OrderItem) (bad : OrderItem) (price404 : ℚ)
    (hsplit : order.items = pre ++ bad :: rest)
    (h : ∀ item ∈ pre, ∃ q, lookup item.product_id = .response 200 q)
    (hbad : lookup bad.product_id = .response 404 price404) :
    create_order σ lookup order now =
      (.error ⟨404, "Product " ++ bad.product_id ++ " not found"⟩, σ) := by
  have hb : processItem bad (lookup bad.product_id) =
      .error ⟨404, "Product " ++ bad.product_id ++ " not found"⟩ := by
    rw [hbad]; rfl
  have hp := priceItems_append_error lookup _ pre bad rest 0 h hb
  rw [create_order, hsplit, hp]

/-- The lookup environment of the C2 witness: product "1" exists, all
others report 404. -/
def lookupW2 : String → LookupResult :=
  fun product_id => if product_id = "1" then .response 200 5 else .response 404 0

/-- The request of the C2 witness: two invalid items; the first one ("999a",
index 1) must be the one reported. -/
def reqW2 : OrderCreate := ⟨"bob", [⟨"1", 1⟩, ⟨"999a", 2⟩, ⟨"999b", 1⟩]⟩

theorem create_order_notfound_aborts_witness :
    reqW2.items = [⟨"1", 1⟩] ++ (⟨"999a", 2⟩ : OrderItem) :: [⟨"999b", 1⟩] ∧
    (∀ item ∈ ([⟨"1", 1⟩] : List OrderItem),
      ∃ q, lookupW2 item.product_id = .response 200 q) ∧
    lookupW2 "999a" = .response 404 0 ∧
    create_order initOrderState lookupW2 reqW2 "2024-01-01T00:00:00" =
      (.error ⟨404, "Product " ++ "999a" ++ " not found"⟩, initOrderState) :=
  have h : ∀ item ∈ ([⟨"1", 1⟩] : List OrderItem),
      ∃ q, lookupW2 item.product_id = .response 200 q := by
    intro item hit
    simp at hit
    subst hit
    exact ⟨5, rfl⟩
  ⟨rfl, h, rfl,
    create_order_notfound_aborts initOrderState lookupW2 reqW2 "2024-01-01T00:00:00"
      [⟨"1", 1⟩] [⟨"999b", 1⟩] ⟨"999a", 2⟩ 0 rfl h rfl⟩

/-! ### Claim C3: failures are side-effect free -/

/-- Claim C3: an order-creation call that fails (for any reason) leaves the
order store and the identifier counter exactly as they were; a successful
call mutates the store exactly once, by inserting the new order, and bumps
the counter by one. -/
theorem create_order_failure_no_side_effect (σ : OrderState)
    (lookup : String → LookupResult) (order : OrderCreate) (now : String) :
    (∀ f, (create_order σ lookup order now).1 = .error f →
      (create_order σ lookup order now).2 = σ) ∧
    (∀ new_order, (create_order σ lookup order now).1 = .ok new_order →
      (create_order σ lookup order now).2 =
        ⟨dictInsert σ.orders_db new_order.id new_order, σ.order_counter + 1⟩) := by
  unfold create_order
  cases hp : priceItems lookup order.items 0 with
  | error f0 => simp
  | ok total =>
    simp only []
    constructor
    · intro f hf
      simp at hf
    · intro new_order hn
      simp at hn
      rw [← hn]

/-- The lookup environment of the C3 witness: every lookup reports 404. -/
def lookupW3 : String → LookupResult := fun _ => .response 404 0

/-- The request of the C3 witness. -/
def reqW3 : OrderCreate := ⟨"bob", [⟨"9", 1⟩]⟩

theorem create_order_failure_no_side_effect_witness :
    (create_order initOrderState lookupW3 reqW3 "2024-01-01T00:00:00").1 =
      .error ⟨404, "Product " ++ "9" ++ " not found"⟩ ∧
    (create_order initOrderState lookupW3 reqW3 "2024-01-01T00:00:00").2 =
      initOrderState :=
  have h : (create_order initOrderState lookupW3 reqW3 "2024-01-01T00:00:00").1 =
      .error ⟨404, "Product " ++ "9" ++ " not found"⟩ := rfl
  ⟨h, (create_order_failure_no_side_effect initOrderState lookupW3 reqW3
    "2024-01-01T00:00:00").1 _ h⟩

/-! ### Claim C4: transport failures vs upstream errors -/

lemma upstream_detail_ne_transport_detail (pid e : String) :
    "Error fetching product " ++ pid ≠ "Product Service unavailable: " ++ e := by
  intro h
  have h2 := congrArg String.data h
  simp only [String.data_append] at h2
  have h3 := congrArg List.head? h2
  simp [String.data] at h3

/-- Claim C4: when the first unpriced item's lookup fails at transport level,
order creation reports 503 with a detail embedding the transport error text;
when it instead receives a non-2xx, non-404 status, order creation passes
that status through with the upstream-error detail. The two failures are
never conflated: no transport failure equals any upstream-error failure. -/
theorem create_order_failure_kinds (σ : OrderState)
    (lookup : String → LookupResult) (order : OrderCreate) (now : String)
    (pre rest : List OrderItem) (bad : OrderItem) (e : String) (s : Nat) (p : ℚ) :
    (order.items = pre ++ bad :: rest →
      (∀ item ∈ pre, ∃ q, lookup item.product_id = .response 200 q) →
      lookup bad.product_id = .transportError e →
      create_order σ lookup order now =
        (.error ⟨503, "Product Service unavailable: " ++ e⟩, σ)) ∧
    (order.items = pre ++ bad :: rest →
      (∀ item ∈ pre, ∃ q, lookup item.product_id = .response 200 q) →
      lookup bad.product_id = .response s p →
      ¬ (200 ≤ s ∧ s ≤ 299) → s ≠ 404 →
      create_order σ lookup order now =
        (.error ⟨s, "Error fetching product " ++ bad.product_id⟩, σ)) ∧
    (∀ (s2 : Nat) (pid : String),
      (⟨503, "Product Service unavailable: " ++ e⟩ : Failure) ≠
        ⟨s2, "Error fetching product " ++ pid⟩) := by
  refine ⟨?_, ?_, ?_⟩
  · intro hsplit h hbad
    have hb : processItem bad (lookup bad.product_id) =
        .error ⟨503, "Product Service unavailable: " ++ e⟩ := by
      rw [hbad]; rfl
    have hp := priceItems_append_error lookup _ pre bad rest 0 h hb
    rw [create_order, hsplit, hp]
  · intro hsplit h hbad h2xx h404
    have h200 : s ≠ 200 := by
      intro hs
      exact h2xx (by simp [hs])
    have hb : processItem bad (lookup bad.product_id) =
        .error ⟨s, "Error fetching product " ++ bad.product_id⟩ := by
      rw [hbad]
      simp [processItem, h200, h404]
    have hp := priceItems_append_error lookup _ pre bad rest 0 h hb
    rw [create_order, hsplit, hp]
  · intro s2 pid heq
    have hd : "Product Service unavailable: " ++ e = "Error fetching product " ++ pid := by
      have := congrArg Failure.detail heq
      simpa using this
    exact upstream_detail_ne_transport_detail pid e hd.symm

/-- The lookup environment of the C4 witness's transport-failure call. -/
def lookupW4a : String → LookupResult := fun _ => .transportError "Connection refused"

/-- The lookup environment of the C4 witness's upstream-error call. -/
def lookupW4b : String → LookupResult := fun _ => .response 500 0

/-- The request of the C4 witness. -/
def reqW4 : OrderCreate := ⟨"carol", [⟨"7", 1⟩]⟩

theorem create_order_failure_kinds_witness :
    create_order initOrderState lookupW4a reqW4 "2024-01-01T00:00:00" =
      (.error ⟨503, "Product Service unavailable: " ++ "Connection refused"⟩,
       initOrderState) ∧
    create_order initOrderState lookupW4b reqW4 "2024-01-01T00:00:00" =
      (.error ⟨500, "Error fetching product " ++ "7"⟩, initOrderState) ∧
    (⟨503, "Product Service unavailable: " ++ "Connection refused"⟩ : Failure) ≠
      ⟨503, "Error fetching product " ++ "7"⟩ :=
  ⟨(create_order_failure_kinds initOrderState lookupW4a reqW4 "2024-01-01T00:00:00"
      [] [] ⟨"7", 1⟩ "Connection refused" 500 0).1 rfl (by simp) rfl,
   (create_order_failure_kinds initOrderState lookupW4b reqW4 "2024-01-01T00:00:00"
      [] [] ⟨"7", 1⟩ "Connection refused" 500 0).2.1 rfl (by simp) rfl
      (by omega) (by omega),
   (create_order_failure_kinds initOrderState lookupW4a reqW4 "2024-01-01T00:00:00"
      [] [] ⟨"7", 1⟩ "Connection refused" 500 0).2.2 503 "7"⟩

/-! ### Claim C6: status-update validation -/

/-- Claim C6: on a stored order, a status update with a value outside
`valid_statuses` returns the 400 InvalidInput failure and leaves the state
(hence the stored order's status) unchanged; a value inside the set returns
the success message and sets exactly that order's status to the value. -/
theorem update_order_status_validation (σ : OrderState)
    (order_id status : String) (o : Order)
    (ho : dictLookup σ.orders_db order_id = some o) :
    (status ∉ valid_statuses →
      update_order_status σ order_id status =
        (.error ⟨400, "Invalid status. Must be one of " ++ toString valid_statuses⟩,
         σ)) ∧
    (status ∈ valid_statuses →
      (update_order_status σ order_id status).1 =
        .ok ("Order " ++ order_id ++ " status updated to " ++ status) ∧
      dictLookup (update_order_status σ order_id status).2.orders_db order_id =
        some { o with status := status }) := by
  have hc : dictContains σ.orders_db order_id = true := by
    simp [dictContains, ho]
  constructor
  · intro hs
    simp [update_order_status, hc, hs]
  · intro hs
    constructor
    · simp [update_order_status, hc, hs]
    · simp [update_order_status, hc, hs, dictLookup_dictModify_self, ho]

/-- The stored order of the C6 witness. -/
def ordW6 : Order := ⟨"1", "alice", [], 0, "pending", "2024-01-01T00:00:00"⟩

/-- The order-service state of the C6 witness: one stored order, counter 2. -/
def σW6 : OrderState := ⟨[("1", ordW6)], 2⟩

theorem update_order_status_validation_witness :
    update_order_status σW6 "1" "flying" =
      (.error ⟨400, "Invalid status. Must be one of " ++ toString valid_statuses⟩,
       σW6) ∧
    ((update_order_status σW6 "1" "shipped").1 =
      .ok ("Order " ++ "1" ++ " status updated to " ++ "shipped") ∧
     dictLookup (update_order_status σW6 "1" "shipped").2.orders_db "1" =
      some { ordW6 with status := "shipped" }) :=
  ⟨(update_order_status_validation σW6 "1" "flying" ordW6 rfl).1 (by decide),
   (update_order_status_validation σW6 "1" "shipped" ordW6 rfl).2 (by decide)⟩

/-! ### Claim C7: listing filters (corrected: Python truthiness on "") -/

/-- Claim C7 counterexample: with the initial catalog, providing the filter
value `""` returns all three products, not the (empty) subset whose category
equals `""` — `if category:` treats the empty string like an absent filter. -/
theorem get_products_empty_filter_counterexample :
    get_products initial_products_db (some "") ≠
      (dictValues initial_products_db).filter (fun p => p.category == "") := by
  simp [get_products, strTruthy, dictValues, initial_products_db]

/-- Claim C7 (amended): listing with an omitted or empty-string filter
returns all stored records; listing with a non-empty filter value returns
exactly the records matching it by exact string equality — for products by
category, for orders by customer id. -/
theorem listing_filter_exact_match (products_db : StrDict Product)
    (σ : OrderState) (c cust : String) :
    (get_products products_db none = dictValues products_db) ∧
    (get_products products_db (some "") = dictValues products_db) ∧
    (c ≠ "" → get_products products_db (some c) =
      (dictValues products_db).filter (fun p => p.category == c)) ∧
    (get_orders σ none = dictValues σ.orders_db) ∧
    (get_orders σ (some "") = dictValues σ.orders_db) ∧
    (cust ≠ "" → get_orders σ (some cust) =
      (dictValues σ.orders_db).filter (fun o => o.customer_id == cust)) := by
  refine ⟨rfl, rfl, ?_, rfl, rfl, ?_⟩
  · intro hc
    simp [get_products, strTruthy, hc]
  · intro hcust
    simp [get_orders, strTruthy, hcust]

/-- The order-service state of the C7 witness. -/
def σW7 : OrderState :=
  ⟨[("1", ⟨"1", "alice", [], 0, "pending", "t"⟩),
    ("2", ⟨"2", "bob", [], 0, "pending", "t"⟩)], 3⟩

theorem listing_filter_exact_match_witness :
    (get_products initial_products_db none = dictValues initial_products_db) ∧
    (get_products initial_products_db (some "") = dictValues initial_products_db) ∧
    (get_products initial_products_db (some "Electronics") =
      (dictValues initial_products_db).filter
        (fun p => p.category == "Electronics")) ∧
    (get_orders σW7 none = dictValues σW7.orders_db) ∧
    (get_orders σW7 (some "") = dictValues σW7.orders_db) ∧
    (get_orders σW7 (some "alice") =
      (dictValues σW7.orders_db).filter (fun o => o.customer_id == "alice")) :=
  have h := listing_filter_exact_match initial_products_db σW7 "Electronics" "alice"
  ⟨h.1, h.2.1, h.2.2.1 (by decide), h.2.2.2.1, h.2.2.2.2.1,
   h.2.2.2.2.2 (by decide)⟩

/-! ### Claim C10: the empty order -/

/-- Claim C10: creating an order with an empty items list issues no remote
lookup and always succeeds, storing an order with total `0`, status
`"pending"`, and the next sequential identifier. -/
theorem create_order_empty_items (σ : OrderState)
    (lookup : String → LookupResult) (customer_id : String) (now : String) :
    create_order σ lookup ⟨customer_id, []⟩ now =
      (.ok ⟨Nat.repr σ.order_counter, customer_id, [], 0, "pending", now⟩,
       ⟨dictInsert σ.orders_db (Nat.repr σ.order_counter)
          ⟨Nat.repr σ.order_counter, customer_id, [], 0, "pending", now⟩,
        σ.order_counter + 1⟩) ∧
    callsMade lookup [] = [] := by
  have h0 : round2 0 = 0 := by
    unfold round2
    norm_num
  constructor
  · unfold create_order priceItems
    simp [h0]
  · rfl

/-! ### Injectivity of `Nat.repr` (Python's `str` on the counters) -/

/-- The numeric value of a decimal digit character. -/
def digitVal (c : Char) : Nat := c.toNat - 48

/-- The number denoted by a list of decimal digit characters. -/
def listVal (cs : List Char) : Nat :=
  cs.foldl (fun a c => 10 * a + digitVal c) 0

lemma digitVal_digitChar : ∀ d, d < 10 → digitVal (Nat.digitChar d) = d := by
  decide

lemma listVal_append_singleton (cs : List Char) (c : Char) :
    listVal (cs ++ [c]) = 10 * listVal cs + digitVal c := by
  simp [listVal, List.foldl_append]

/-- The decimal digit characters of `n`, most significant first: the
fuel-free counterpart of `Nat.toDigitsCore`. -/
def natToChars (n : Nat) : List Char :=
  if n < 10 then [Nat.digitChar n]
  else natToChars (n / 10) ++ [Nat.digitChar (n % 10)]
  decreasing_by exact Nat.div_lt_self (by omega) (by omega)

lemma listVal_natToChars : ∀ n, listVal (natToChars n) = n := by
  intro n
  induction n using Nat.strong_induction_on with
  | _ n ih =>
    rw [natToChars]
    by_cases h : n < 10
    · simp [h, listVal, digitVal_digitChar n h]
    · have hd : n / 10 < n := Nat.div_lt_self (by omega) (by omega)
      rw [if_neg h, listVal_append_singleton, ih (n / 10) hd,
        digitVal_digitChar (n % 10) (Nat.mod_lt n (by omega))]
      exact Nat.div_add_mod n 10

lemma toDigitsCore_eq_natToChars :
    ∀ (fuel n : Nat) (ds : List Char), n < fuel →
      Nat.toDigitsCore 10 fuel n ds = natToChars n ++ ds := by
  intro fuel
  induction fuel with
  | zero => intro n ds h; omega
  | succ fuel ih =>
    intro n ds h
    rw [Nat.toDigitsCore]
    by_cases h10 : n / 10 = 0
    · have hn : n < 10 := by omega
      rw [if_pos h10, natToChars, if_pos hn, Nat.mod_eq_of_lt hn]
      rfl
    · have hn : ¬ n < 10 := by
        intro hlt
        exact h10 (Nat.div_eq_of_lt hlt)
      have hd : n / 10 < n := Nat.div_lt_self (by omega) (by omega)
      have hfuel : n / 10 < fuel := by omega
      rw [if_neg h10, ih (n / 10) (Nat.digitChar (n % 10) :: ds) hfuel]
      conv_rhs => rw [natToChars, if_neg hn]
      rw [List.append_assoc]
      rfl

lemma natRepr_inj {m n : Nat} (h : Nat.repr m = Nat.repr n) : m = n := by
  have h2 : Nat.toDigits 10 m = Nat.toDigits 10 n := by
    have h3 := congrArg String.data h
    exact h3
  rw [Nat.toDigits, Nat.toDigits,
    toDigitsCore_eq_natToChars (m + 1) m [] (Nat.lt_succ_self m),
    toDigitsCore_eq_natToChars (n + 1) n [] (Nat.lt_succ_self n),
    List.append_nil, List.append_nil] at h2
  have h4 := congrArg listVal h2
  rwa [listVal_natToChars, listVal_natToChars] at h4

/-! ### Order-service operation sequences -/

/-- One inbound request to the order service, bundled with the environment
it observes (the remote lookup behavior during that call, and the clock). -/
inductive OrderOp
  | createOrder (lookup : String → LookupResult) (order : OrderCreate) (now : String)
  | getOrder (order_id : String)
  | listOrders (customer_id : Option String)
  | updateStatus (order_id : String) (status : String)

/-- The state after handling one request. -/
def applyOp (σ : OrderState) : OrderOp → OrderState
  | .createOrder lookup order now => (create_order σ lookup order now).2
  | .getOrder _ => σ
  | .listOrders _ => σ
  | .updateStatus order_id status => (update_order_status σ order_id status).2

/-- The order ids assigned by one request: one for a successful creation,
none otherwise. -/
def assignedIds (σ : OrderState) : OrderOp → List String
  | .createOrder lookup order now =>
    match (create_order σ lookup order now).1 with
    | .ok o => [o.id]
    | .error _ => []
  | _ => []

/-- Run a request sequence from a state, collecting the assigned order ids
in order of successful creation. -/
def runOps (σ : OrderState) : List OrderOp → OrderState × List String
  | [] => (σ, [])
  | op :: rest =>
    ((runOps (applyOp σ op) rest).1,
     assignedIds σ op ++ (runOps (applyOp σ op) rest).2)

lemma create_order_error_state (σ : OrderState) (lookup : String → LookupResult)
    (order : OrderCreate) (now : String) (f : Failure)
    (h : priceItems lookup order.items 0 = .error f) :
    create_order σ lookup order now = (.error f, σ) := by
  rw [create_order, h]

lemma create_order_ok_state (σ : OrderState) (lookup : String → LookupResult)
    (order : OrderCreate) (now : String) (total : ℚ)
    (h : priceItems lookup order.items 0 = .ok total) :
    create_order σ lookup order now =
      (.ok ⟨Nat.repr σ.order_counter, order.customer_id, order.items,
        round2 total, "pending", now⟩,
       ⟨dictInsert σ.orders_db (Nat.repr σ.order_counter)
          ⟨Nat.repr σ.order_counter, order.customer_id, order.items,
           round2 total, "pending", now⟩,
        σ.order_counter + 1⟩) := by
  rw [create_order, h]

lemma update_order_status_state (σ : OrderState) (order_id status : String) :
    (update_order_status σ order_id status).2 = σ ∨
    (update_order_status σ order_id status).2 =
      ⟨dictModify σ.orders_db order_id (fun o => { o with status := status }),
       σ.order_counter⟩ := by
  unfold update_order_status
  by_cases h1 : dictContains σ.orders_db order_id <;>
    by_cases h2 : status ∈ valid_statuses <;> simp [h1, h2]

/-- Each request either assigns no id and preserves the counter, or assigns
exactly the string form of the current counter and bumps it. -/
lemma applyOp_counter_ids (σ : OrderState) (op : OrderOp) :
    (assignedIds σ op = [] ∧ (applyOp σ op).order_counter = σ.order_counter) ∨
    (assignedIds σ op = [Nat.repr σ.order_counter] ∧
      (applyOp σ op).order_counter = σ.order_counter + 1) := by
  cases op with
  | createOrder lookup order now =>
    cases hp : priceItems lookup order.items 0 with
    | error f =>
      left
      have he := create_order_error_state σ lookup order now f hp
      simp [assignedIds, applyOp, he]
    | ok total =>
      right
      have he := create_order_ok_state σ lookup order now total hp
      simp [assignedIds, applyOp, he]
  | getOrder oid => left; exact ⟨rfl, rfl⟩
  | listOrders c => left; exact ⟨rfl, rfl⟩
  | updateStatus oid st =>
    left
    refine ⟨rfl, ?_⟩
    rcases update_order_status_state σ oid st with h | h <;> simp [applyOp, h]

lemma runOps_ids_spec : ∀ (ops : List OrderOp) (σ : OrderState),
    (runOps σ ops).2 =
      (List.range' σ.order_counter (runOps σ ops).2.length).map Nat.repr ∧
    (runOps σ ops).1.order_counter = σ.order_counter + (runOps σ ops).2.length := by
  intro ops
  induction ops with
  | nil => intro σ; simp [runOps]
  | cons op rest ih =>
    intro σ
    obtain ⟨hids, hcnt⟩ := ih (applyOp σ op)
    rcases applyOp_counter_ids σ op with ⟨h1, h2⟩ | ⟨h1, h2⟩
    · rw [h2] at hids hcnt
      constructor
      · show assignedIds σ op ++ (runOps (applyOp σ op) rest).2 =
          (List.range' σ.order_counter ((runOps σ (op :: rest)).2.length)).map Nat.repr
        have hl : (runOps σ (op :: rest)).2.length =
            (runOps (applyOp σ op) rest).2.length := by
          simp [runOps, h1]
        rw [h1, List.nil_append, hids, hl]
      · show (runOps (applyOp σ op) rest).1.order_counter = _
        rw [hcnt]
        simp [runOps, h1]
    · rw [h2] at hids hcnt
      constructor
      · show assignedIds σ op ++ (runOps (applyOp σ op) rest).2 = _
        rw [h1, hids]
        have hlen : (assignedIds σ op ++ (runOps (applyOp σ op) rest).2).length =
            (runOps (applyOp σ op) rest).2.length + 1 := by
          simp [h1]
        show _ = (List.range' σ.order_counter
          ((runOps σ (op :: rest)).2.length)).map Nat.repr
        have : (runOps σ (op :: rest)).2.length =
            (runOps (applyOp σ op) rest).2.length + 1 := by
          simp [runOps, h1]
        rw [this, List.range'_succ, List.map_cons]
        simp
      · show (runOps (applyOp σ op) rest).1.order_counter = _
        rw [hcnt]
        simp [runOps, h1]
        omega

/-! ### Claim C5: sequential, never-reused order ids -/

/-- Claim C5: over any request sequence from process start, the order ids
assigned to successful creations are exactly the string forms of
1, 2, 3, ... in order, and no id is ever assigned twice. -/
theorem order_ids_sequential (ops : List OrderOp) :
    (runOps initOrderState ops).2 =
      (List.range' 1 (runOps initOrderState ops).2.length).map Nat.repr ∧
    (runOps initOrderState ops).2.Nodup := by
  obtain ⟨hids, _⟩ := runOps_ids_spec ops initOrderState
  refine ⟨hids, ?_⟩
  rw [hids]
  exact (List.nodup_range' 1 _).map (fun a b hab => natRepr_inj hab)

/-! ### Claim C9: only a status update mutates a stored order -/

/-- A state the order service can actually be in: reachable from process
start by some request sequence. -/
def Reachable (σ : OrderState) : Prop :=
  ∃ ops, (runOps initOrderState ops).1 = σ

/-- The key invariant of reachable states: the counter is positive and every
stored key is the string form of some smaller positive number (so the next
assigned id is fresh). -/
def GoodState (σ : OrderState) : Prop :=
  0 < σ.order_counter ∧
  ∀ p ∈ σ.orders_db, ∃ n, 0 < n ∧ n < σ.order_counter ∧ p.1 = Nat.repr n

lemma goodState_applyOp (σ : OrderState) (op : OrderOp) (h : GoodState σ) :
    GoodState (applyOp σ op) := by
  obtain ⟨hc, hdb⟩ := h
  cases op with
  | createOrder lookup order now =>
    cases hp : priceItems lookup order.items 0 with
    | error f =>
      have he := create_order_error_state σ lookup order now f hp
      simpa [applyOp, he] using ⟨hc, hdb⟩
    | ok total =>
      have he := create_order_ok_state σ lookup order now total hp
      simp only [applyOp, he]
      refine ⟨Nat.lt_succ_of_lt hc, ?_⟩
      intro p hp2
      rcases mem_dictInsert _ _ _ _ hp2 with hmem | hmem
      · obtain ⟨n, hn⟩ := hdb p hmem
        exact ⟨n, hn.1, Nat.lt_succ_of_lt hn.2.1, hn.2.2⟩
      · exact ⟨σ.order_counter, hc, Nat.lt_succ_self _, by rw [hmem]⟩
  | getOrder oid => exact ⟨hc, hdb⟩
  | listOrders c => exact ⟨hc, hdb⟩
  | updateStatus oid st =>
    rcases update_order_status_state σ oid st with h2 | h2
    · simpa [applyOp, h2] using ⟨hc, hdb⟩
    · simp only [applyOp, h2]
      refine ⟨hc, ?_⟩
      intro p hp2
      obtain ⟨q, hq, hpq, _⟩ := mem_dictModify _ _ _ _ hp2
      obtain ⟨n, hn⟩ := hdb q hq
      exact ⟨n, hn.1, hn.2.1, by rw [hpq, hn.2.2]⟩

lemma goodState_runOps : ∀ (ops : List OrderOp) (σ : OrderState),
    GoodState σ → GoodState (runOps σ ops).1 := by
  intro ops
  induction ops with
  | nil => intro σ h; exact h
  | cons op rest ih =>
    intro σ h
    exact ih (applyOp σ op) (goodState_applyOp σ op h)

lemma reachable_goodState (σ : OrderState) (h : Reachable σ) : GoodState σ := by
  obtain ⟨ops, rfl⟩ := h
  exact goodState_runOps ops initOrderState ⟨by decide, by simp [initOrderState]⟩

/-- Claim C9: on any reachable state, handling any request leaves every
stored order intact, except that a status update naming that order with a
valid status value replaces exactly its status field; in particular no
request other than a status update mutates a stored order, and a status
update leaves every other order unchanged. -/
theorem stored_order_mutation_frame (σ : OrderState) (hσ : Reachable σ)
    (op : OrderOp) (oid : String) (o : Order)
    (ho : dictLookup σ.orders_db oid = some o) :
    dictLookup (applyOp σ op).orders_db oid =
      some (match op with
            | .updateStatus oid2 st =>
              if oid2 = oid ∧ st ∈ valid_statuses then { o with status := st } else o
            | _ => o) := by
  have hg := reachable_goodState σ hσ
  cases op with
  | createOrder lookup order now =>
    simp only [applyOp]
    cases hp : priceItems lookup order.items 0 with
    | error f =>
      rw [create_order_error_state σ lookup order now f hp]
      exact ho
    | ok total =>
      rw [create_order_ok_state σ lookup order now total hp]
      have hne : Nat.repr σ.order_counter ≠ oid := by
        obtain ⟨n, hn0, hnc, hrepr⟩ := hg.2 (oid, o) (mem_of_dictLookup _ _ _ ho)
        have hrepr2 : oid = Nat.repr n := hrepr
        intro he
        have : σ.order_counter = n := natRepr_inj (by rw [he]; exact hrepr2)
        omega
      show dictLookup (dictInsert σ.orders_db (Nat.repr σ.order_counter) _) oid = _
      rw [dictLookup_dictInsert_ne _ _ _ _ hne]
      exact ho
  | getOrder oid2 => exact ho
  | listOrders c => exact ho
  | updateStatus oid2 st =>
    simp only [applyOp]
    unfold update_order_status
    by_cases h1 : dictContains σ.orders_db oid2 = true
    · rw [if_pos h1]
      by_cases h2 : st ∈ valid_statuses
      · rw [if_pos h2]
        by_cases h3 : oid2 = oid
        · subst h3
          show dictLookup (dictModify σ.orders_db oid2 _) oid2 = _
          rw [dictLookup_dictModify_self, ho]
          simp [h2]
        · show dictLookup (dictModify σ.orders_db oid2 _) oid = _
          rw [dictLookup_dictModify_ne _ _ _ _ h3, ho]
          simp [h3]
      · rw [if_neg h2]
        show dictLookup σ.orders_db oid = _
        rw [ho]
        simp [h2]
    · have h3 : oid2 ≠ oid := by
        intro he
        rw [he] at h1
        exact h1 (by simp [dictContains, ho])
      rw [if_neg h1]
      show dictLookup σ.orders_db oid = _
      rw [ho]
      simp [h3]

/-- The request sequence leading to the C9 witness state: one successful
order creation. -/
def opsW9 : List OrderOp :=
  [.createOrder (fun _ => .response 200 2) ⟨"alice", [⟨"1", 2⟩]⟩ "2024-01-01T00:00:00"]

/-- The reachable state of the C9 witness. -/
def σW9 : OrderState := (runOps initOrderState opsW9).1

/-- The order stored in the C9 witness state. -/
def ordW9 : Order :=
  ⟨"1", "alice", [⟨"1", 2⟩], round2 (0 + 2 * ((2 : Int) : ℚ)), "pending",
   "2024-01-01T00:00:00"⟩

theorem stored_order_mutation_frame_witness :
    Reachable σW9 ∧
    dictLookup σW9.orders_db "1" = some ordW9 ∧
    dictLookup (applyOp σW9 (.updateStatus "1" "shipped")).orders_db "1" =
      some (if ("1" : String) = "1" ∧ ("shipped" : String) ∈ valid_statuses
            then { ordW9 with status := "shipped" } else ordW9) :=
  ⟨⟨opsW9, rfl⟩, rfl,
   stored_order_mutation_frame σW9 ⟨opsW9, rfl⟩ (.updateStatus "1" "shipped")
     "1" ordW9 rfl⟩

/-! ### The composed two-service system -/

/-- The lookup environment the deployed order service observes: the remote
`GET /products/{id}` is served by the product service over its catalog, so a
present product yields a 200 response with its price and an absent one a 404. -/
def catalogOracle (products_db : StrDict Product) : String → LookupResult :=
  fun product_id =>
    match dictLookup products_db product_id with
    | some p => .response 200 p.price
    | none => .response 404 0

/-- The combined state of both services. -/
structure SysState where
  products_db : StrDict Product
  orders : OrderState

/-- The state at process start of both services. -/
def initSysState : SysState := ⟨initial_products_db, initOrderState⟩

/-- A state-mutating request to either service. -/
inductive SysOp
  | createProduct (product : ProductCreate)
  | updateProduct (product_id : String) (product : ProductCreate)
  | deleteProduct (product_id : String)
  | createOrder (order : OrderCreate) (now : String)
  | updateStatus (order_id : String) (status : String)

/-- The combined state after one request. -/
def sysStep (s : SysState) : SysOp → SysState
  | .createProduct p => ⟨(create_product s.products_db p).2, s.orders⟩
  | .updateProduct pid p => ⟨(update_product s.products_db pid p).2, s.orders⟩
  | .deleteProduct pid => ⟨(delete_product s.products_db pid).2, s.orders⟩
  | .createOrder order now =>
    ⟨s.products_db,
     (create_order s.orders (catalogOracle s.products_db) order now).2⟩
  | .updateStatus oid st => ⟨s.products_db, (update_order_status s.orders oid st).2⟩

/-- Run a request sequence against the combined system. -/
def sysRun (s : SysState) : List SysOp → SysState
  | [] => s
  | op :: rest => sysRun (sysStep s op) rest

/-! ### Claim C8: order totals and non-negativity (corrected) -/

/-- The request sequence of the C8 counterexample: create a product with a
negative price (nothing rejects it; it receives id "4"), then order one
unit of it. -/
def opsW8 : List SysOp :=
  [.createProduct ⟨"Widget", -5, "Misc"⟩,
   .createOrder ⟨"dave", [⟨"4", 1⟩]⟩ "2024-01-01T00:00:00"]

/-- Claim C8 counterexample: after creating a product priced -5 and ordering
one unit of it, the store holds an order whose total is negative — no
operation rejects negative prices, so stored totals are not always
non-negative. -/
theorem order_total_nonneg_counterexample :
    dictLookup (sysRun initSysState opsW8).orders.orders_db "1" =
      some ⟨"1", "dave", [⟨"4", 1⟩], round2 (0 + -5 * ((1 : Int) : ℚ)),
        "pending", "2024-01-01T00:00:00"⟩ ∧
    round2 (0 + -5 * ((1 : Int) : ℚ)) < 0 := by
  constructor
  · rfl
  · rw [round2, round_eq]
    norm_num

/-- The price/quantity restriction under which non-negativity does hold:
product creations and updates carry a non-negative price, order items carry
a non-negative quantity. -/
def sysOpNonneg : SysOp → Prop
  | .createProduct p => 0 ≤ p.price
  | .updateProduct _ p => 0 ≤ p.price
  | .createOrder order _ => ∀ item ∈ order.items, 0 ≤ item.quantity
  | _ => True

/-- Every price in the catalog is non-negative. -/
def catalogNonneg (products_db : StrDict Product) : Prop :=
  ∀ p ∈ products_db, 0 ≤ p.2.price

/-- Every stored order's total is non-negative. -/
def ordersNonneg (σ : OrderState) : Prop :=
  ∀ p ∈ σ.orders_db, 0 ≤ p.2.total

lemma round2_nonneg (q : ℚ) (h : 0 ≤ q) : 0 ≤ round2 q := by
  unfold round2
  apply div_nonneg _ (by norm_num)
  have h2 : (0 : ℤ) ≤ round (q * 100) := by
    rw [round_eq]
    refine Int.floor_nonneg.mpr ?_
    nlinarith
  exact_mod_cast h2

lemma priceItems_catalog_nonneg (products_db : StrDict Product)
    (hdb : catalogNonneg products_db) :
    ∀ (items : List OrderItem) (acc total : ℚ),
      (∀ item ∈ items, 0 ≤ item.quantity) → 0 ≤ acc →
      priceItems (catalogOracle products_db) items acc = .ok total →
      0 ≤ total := by
  intro items
  induction items with
  | nil =>
    intro acc total _ hacc ht
    rw [priceItems] at ht
    cases ht
    exact hacc
  | cons item rest ih =>
    intro acc total hq hacc ht
    rw [priceItems] at ht
    cases hlk : dictLookup products_db item.product_id with
    | none =>
      rw [show catalogOracle products_db item.product_id = .response 404 0 by
        rw [catalogOracle, hlk]] at ht
      simp [processItem] at ht
    | some p =>
      rw [show catalogOracle products_db item.product_id = .response 200 p.price by
        rw [catalogOracle, hlk]] at ht
      simp only [processItem, if_pos rfl] at ht
      have hp : 0 ≤ p.price := hdb (item.product_id, p) (mem_of_dictLookup _ _ _ hlk)
      have hqi : (0 : ℚ) ≤ (item.quantity : ℚ) := by
        exact_mod_cast hq item (by simp)
      exact ih (acc + p.price * (item.quantity : ℚ)) total
        (fun it hit => hq it (by simp [hit]))
        (by nlinarith) ht

lemma sysStep_nonneg (s : SysState) (op : SysOp) (hop : sysOpNonneg op)
    (hc : catalogNonneg s.products_db) (ho : ordersNonneg s.orders) :
    catalogNonneg (sysStep s op).products_db ∧ ordersNonneg (sysStep s op).orders := by
  cases op with
  | createProduct p =>
    refine ⟨?_, ho⟩
    intro q hq
    rcases mem_dictInsert _ _ _ _ hq with hmem | hmem
    · exact hc q hmem
    · rw [hmem]
      exact hop
  | updateProduct pid p =>
    refine ⟨?_, ho⟩
    intro q hq
    show (0 : ℚ) ≤ q.2.price
    simp only [sysStep, update_product] at hq
    by_cases hcont : dictContains s.products_db pid = true
    · rw [if_pos hcont] at hq
      rcases mem_dictInsert _ _ _ _ hq with hmem | hmem
      · exact hc q hmem
      · rw [hmem]
        exact hop
    · rw [if_neg hcont] at hq
      exact hc q hq
  | deleteProduct pid =>
    refine ⟨?_, ho⟩
    intro q hq
    show (0 : ℚ) ≤ q.2.price
    simp only [sysStep, delete_product] at hq
    by_cases hcont : dictContains s.products_db pid = true
    · rw [if_pos hcont] at hq
      exact hc q (mem_dictDelete _ _ _ hq)
    · rw [if_neg hcont] at hq
      exact hc q hq
  | createOrder order now =>
    refine ⟨hc, ?_⟩
    show ordersNonneg (create_order s.orders (catalogOracle s.products_db) order now).2
    cases hp : priceItems (catalogOracle s.products_db) order.items 0 with
    | error f =>
      rw [create_order_error_state _ _ _ _ _ hp]
      exact ho
    | ok total =>
      rw [create_order_ok_state _ _ _ _ _ hp]
      intro q hq
      rcases mem_dictInsert _ _ _ _ hq with hmem | hmem
      · exact ho q hmem
      · rw [hmem]
        exact round2_nonneg total
          (priceItems_catalog_nonneg s.products_db hc order.items 0 total hop
            le_rfl hp)
  | updateStatus oid st =>
    refine ⟨hc, ?_⟩
    show ordersNonneg (update_order_status s.orders oid st).2
    rcases update_order_status_state s.orders oid st with h2 | h2
    · rw [h2]
      exact ho
    · rw [h2]
      intro q hq
      obtain ⟨r, hr, _, hv⟩ := mem_dictModify _ _ _ _ hq
      rcases hv with hv | hv
      · rw [hv]
        exact ho r hr
      · rw [hv]
        exact ho r hr

lemma sysRun_nonneg : ∀ (ops : List SysOp) (s : SysState),
    (∀ op ∈ ops, sysOpNonneg op) →
    catalogNonneg s.products_db → ordersNonneg s.orders →
    ordersNonneg (sysRun s ops).orders := by
  intro ops
  induction ops with
  | nil => intro s _ _ ho; exact ho
  | cons op rest ih =>
    intro s h hc ho
    obtain ⟨hc2, ho2⟩ := sysStep_nonneg s op (h op (by simp)) hc ho
    exact ih (sysStep s op) (fun o2 h2 => h o2 (by simp [h2])) hc2 ho2

/-- Claim C8 (amended): for every request sequence in which each product
creation or update carries a non-negative price and each order item a
non-negative quantity, every Order in the store has a non-negative total.
(The unamended claim, quantified over all sequences including negative
prices, is refuted by the counterexample.) -/
theorem order_totals_nonneg_of_nonneg_inputs (ops : List SysOp)
    (h : ∀ op ∈ ops, sysOpNonneg op) :
    ordersNonneg (sysRun initSysState ops).orders := by
  refine sysRun_nonneg ops initSysState h ?_ ?_
  · intro p hp
    simp only [initSysState, initial_products_db, List.mem_cons,
      List.mem_singleton] at hp
    rcases hp with rfl | rfl | rfl | hp
    · norm_num
    · norm_num
    · norm_num
    · simp at hp
  · intro p hp
    simp [initSysState, initOrderState] at hp

/-- The request sequence of the C8 witness: a non-negative-price product and
an order for two units of it. -/
def opsW8b : List SysOp :=
  [.createProduct ⟨"Widget", 5, "Misc"⟩,
   .createOrder ⟨"erin", [⟨"4", 2⟩]⟩ "2024-01-01T00:00:00"]

theorem order_totals_nonneg_of_nonneg_inputs_witness :
    (∀ op ∈ opsW8b, sysOpNonneg op) ∧
    ordersNonneg (sysRun initSysState opsW8b).orders :=
  have h : ∀ op ∈ opsW8b, sysOpNonneg op := by
    intro op hop
    simp only [opsW8b, List.mem_cons, List.mem_singleton] at hop
    rcases hop with rfl | rfl | hop
    · show (0 : ℚ) ≤ 5
      norm_num
    · intro item hit
      simp only [List.mem_singleton] at hit
      rw [hit]
      decide
    · simp at hop
  ⟨h, order_totals_nonneg_of_nonneg_inputs opsW8b h⟩

end MicroDemo
